import Mathlib

/-!
Verification of the competitive rank-history aggregator of the
valo-api-playground repository (src/valo_mmr.py and src/get_valo_mmr.py).

Modelling conventions:
* Python strings are lists of characters (`PyStr`); comparisons,
  slicing, splitting and lower-casing are implemented structurally so
  that concrete runs reduce in the kernel.
* JSON objects are association lists in insertion order.  Numeric fields
  that the code only ever reads with a zero default are folded into that
  default (a field absent from the JSON and a field equal to the default
  are indistinguishable to the code).  Dict truthiness checks become
  emptiness checks; `dict.get(k)`/`or {}` normalisations become `Option`.
* `datetime.now(UTC)` is the one piece of ambient state the code reads;
  it is passed in explicitly as the parameter `now`, and the ISO-8601
  rendering of a timestamp is abstracted to the rendered millisecond
  value (the rendering itself is an injective pure function).
-/

abbrev PyStr := List Char

def pstr (s : String) : PyStr := s.toList

/-- Python string truthiness / `startswith` on a single-character prefix. -/
def pyStartsWith (s : PyStr) (c : Char) : Bool :=
  match s with
  | [] => false
  | c0 :: _ => c0 = c

/-- Python `s.split(sep)` for a one-character separator: always returns at
least one part; n separators yield n+1 parts. -/
def splitOnChar (sep : Char) : PyStr → List PyStr
  | [] => [[]]
  | c :: cs =>
    let rest := splitOnChar sep cs
    if c = sep then [] :: rest
    else
      match rest with
      | [] => [[c]]
      | r :: rs => (c :: r) :: rs

/-- Python `s.lower()` restricted to ASCII, which is all this program feeds
it (season identifiers are hexadecimal/dash strings). -/
def pyLower (s : PyStr) : PyStr :=
  s.map fun c => if 'A' ≤ c ∧ c ≤ 'Z' then Char.ofNat (c.toNat + 32) else c

/-- Digit run for `pyInt`. -/
def pyDigits (cs : PyStr) : Option Nat :=
  if cs.isEmpty then none
  else if cs.all Char.isDigit then
    some (cs.foldl (fun a c => a * 10 + (c.toNat - 48)) 0)
  else none

/-- Python `int(s)` on the strings this program can produce: an optional
sign followed by one or more ASCII digits; anything else raises
`ValueError`, modelled as `none`.  (Python additionally strips
whitespace and allows inner underscores; no season short code or
identifier prefix in this program contains either, so those forms are
not modelled.) -/
def pyInt : PyStr → Option Int
  | '+' :: rest => (pyDigits rest).map (fun n => (n : Int))
  | '-' :: rest => (pyDigits rest).map (fun n => -(n : Int))
  | cs => (pyDigits cs).map (fun n => (n : Int))

/-- Python `max(l, default=d)`. -/
def pyMax (l : List Int) (d : Int) : Int :=
  match l with
  | [] => d
  | x :: xs => xs.foldl max x

/-- Python string `<` (lexicographic on code points). -/
def listLt : PyStr → PyStr → Bool
  | [], [] => false
  | [], _ :: _ => true
  | _ :: _, [] => false
  | a :: as, b :: bs => if a < b then true else if b < a then false else listLt as bs

/-- The fold step of `lexLastKey`: keep the larger of the running
maximum and the next key. -/
def lexStep (acc : Option PyStr) (s : PyStr) : Option PyStr :=
  match acc with
  | none => some s
  | some a => if listLt a s then some s else some a

/-- `sorted(keys)[-1]`: the lexicographically greatest element (Python's
sort on `str` compares code points); `none` on the empty list. -/
def lexLastKey (keys : List PyStr) : Option PyStr :=
  keys.foldl lexStep none

/-- Stable insertion: `x` goes after every element that `stays` keeps in
front of it; equal elements therefore keep their original relative
order, as Python's sort guarantees. -/
def stableInsert (stays : α → α → Bool) (x : α) : List α → List α
  | [] => [x]
  | y :: ys => if stays y x then y :: stableInsert stays x ys else x :: y :: ys

/-- Python's stable `sorted`: left fold of stable insertions. -/
def stableSort (stays : α → α → Bool) (l : List α) : List α :=
  l.foldl (fun acc x => stableInsert stays x acc) []

/-- Python tuple `<=` on pairs of integers (lexicographic). -/
def tupLeB (a b : Int × Int) : Bool :=
  if a.1 < b.1 then true else if b.1 < a.1 then false else decide (a.2 ≤ b.2)

namespace ValoMMR

/-- TIER_MAP from src/valo_mmr.py: Riot tier number to readable name. -/
def TIER_MAP : List (Int × String) :=
  [ (0, r"Unrated"), (1, r"Unused"), (2, r"Unused"),
    (3, r"Iron 1"), (4, r"Iron 2"), (5, r"Iron 3"),
    (6, r"Bronze 1"), (7, r"Bronze 2"), (8, r"Bronze 3"),
    (9, r"Silver 1"), (10, r"Silver 2"), (11, r"Silver 3"),
    (12, r"Gold 1"), (13, r"Gold 2"), (14, r"Gold 3"),
    (15, r"Platinum 1"), (16, r"Platinum 2"), (17, r"Platinum 3"),
    (18, r"Diamond 1"), (19, r"Diamond 2"), (20, r"Diamond 3"),
    (21, r"Ascendant 1"), (22, r"Ascendant 2"), (23, r"Ascendant 3"),
    (24, r"Immortal 1"), (25, r"Immortal 2"), (26, r"Immortal 3"),
    (27, r"Radiant") ]

/-- `TIER_MAP.get(tier_id, "Unknown")`. -/
def tierMapGet (t : Int) : String := (TIER_MAP.lookup t).getD r"Unknown"

/-- The episode number that both `get_tier_name` and `get_ranking_schema`
extract from a season short code: defined only when the string is
nonempty, starts with 'e', and the text before the first 'a' of the
remainder parses as an integer.  (The source's `len(parts) >= 1` check is
vacuous: `split` always returns at least one part.) -/
def short_episode (s : PyStr) : Option Int :=
  if ¬s.isEmpty ∧ pyStartsWith s 'e' then pyInt ((splitOnChar 'a' (s.drop 1)).headD [])
  else none

/-- get_tier_name from src/valo_mmr.py: base table lookup, overridden for
tiers 21–24 when the season short code names an episode below 5. -/
def get_tier_name (tier_id : Int) (season_short_str : PyStr) : String :=
  let name := tierMapGet tier_id
  match short_episode season_short_str with
  | some ep =>
    if ep < 5 then
      if tier_id = 21 then r"Immortal 1"
      else if tier_id = 22 then r"Immortal 2"
      else if tier_id = 23 then r"Immortal 3"
      else if tier_id = 24 then r"Radiant"
      else name
    else name
  | none => name

/-- SEASON_MAP from src/valo_mmr.py: season UUID to episode/act code. -/
def SEASON_MAP : List (PyStr × PyStr) :=
  [ (pstr r"0530b9c4-4980-f2ee-df5d-09864cd00542", pstr r"e1a2"),
    (pstr r"46ea6166-4573-1128-9cea-60a15640059b", pstr r"e1a3"),
    (pstr r"97b6e739-44cc-ffa7-49ad-398ba502ceb0", pstr r"e2a1"),
    (pstr r"ab57ef51-4e59-da91-cc8d-51a5a2b9b8ff", pstr r"e2a2"),
    (pstr r"52e9749a-429b-7060-99fe-4595426a0cf7", pstr r"e2a3"),
    (pstr r"16118998-4705-5813-86dd-0292a2439d90", pstr r"e3a1"),
    (pstr r"4cb622e1-4244-6da3-7276-8daaf1c01be2", pstr r"e3a2"),
    (pstr r"a16955a5-4ad0-f761-5e9e-389df1c892fb", pstr r"e3a3"),
    (pstr r"573f53ac-41a5-3a7d-d9ce-d6a6298e5704", pstr r"e4a1"),
    (pstr r"d929bc38-4ab6-7da4-94f0-ee84f8ac141e", pstr r"e4a2"),
    (pstr r"3e47230a-463c-a301-eb7d-67bb60357d4f", pstr r"e4a3"),
    (pstr r"67e373c7-48f7-b422-641b-079ace30b427", pstr r"e5a1"),
    (pstr r"7a85de9a-4032-61a9-61d8-f4aa2b4a84b6", pstr r"e5a2"),
    (pstr r"aca29595-40e4-01f5-3f35-b1b3d304c96e", pstr r"e5a3"),
    (pstr r"9c91a445-4f78-1baa-a3ea-8f8aadf4914d", pstr r"e6a1"),
    (pstr r"34093c29-4306-43de-452f-3f944bde22be", pstr r"e6a2"),
    (pstr r"2de5423b-4aad-02ad-8d9b-c0a931958861", pstr r"e6a3"),
    (pstr r"4d4ce85a-f26f-d7e1-fb23-f02dc69dc52c", pstr r"e7a1"),
    (pstr r"03dfd004-45d4-ebfd-ab0a-948ce780dac4", pstr r"e7a2"),
    (pstr r"4401f9fd-4170-2e4c-4bc3-f3b4d7d150d1", pstr r"e7a3"),
    (pstr r"22d10d66-4d2a-a340-6c54-408c7bd53807", pstr r"e8a1"),
    (pstr r"292f58db-4c17-89a7-b1c0-ba988f0e9d98", pstr r"e8a2"),
    (pstr r"4539cac3-47ae-90e5-3d01-b3812ca3274e", pstr r"e8a3"),
    (pstr r"476b0893-4c2e-abd6-c5fe-708facff0772", pstr r"e9a1"),
    (pstr r"4c4b8cff-43eb-13d3-8f14-96b783c90cd2", pstr r"e9a2"),
    (pstr r"dcde7346-4085-de4f-c463-2489ed47983b", pstr r"e9a3"),
    (pstr r"476b92e4-88ac-d0ea-4c0f-84838b62b0d7", pstr r"e10a1"),
    (pstr r"1611cbeb-c1e6-d92d-22f6-8a8084e4c5a7", pstr r"e10a2"),
    (pstr r"aef237a0-494d-3a14-a1c8-ec8de84e309c", pstr r"e10a3"),
    (pstr r"ac12e9b3-47e6-9599-8fa1-0bb473e5efc7", pstr r"e10a4"),
    (pstr r"5adc33fa-4f30-2899-f131-6fba64c5dd3a", pstr r"e10a5"),
    (pstr r"4c4bf00b-e78a-7a79-04af-0aa63068e4e2", pstr r"e10a6"),
    (pstr r"ec876e6c-43e8-fa63-ffc1-2e8d4db25525", pstr r"e10a7") ]

/-- season_short from src/valo_mmr.py: catalog lookup, else the lowered
4-character prefix of the identifier, else "unknown" for the empty id. -/
def season_short (season_id : PyStr) : PyStr :=
  (SEASON_MAP.lookup season_id).getD
    (if ¬season_id.isEmpty then pyLower (season_id.take 4) else pstr r"unknown")

/-- get_ranking_schema from map_mmr_to_henrik in src/valo_mmr.py:
"ascendant" for episode 5 and later, "base" otherwise (including every
season whose short code fails the episode parse). -/
def get_ranking_schema (season_id : PyStr) : String :=
  match short_episode (season_short season_id) with
  | some ep => if 5 ≤ ep then r"ascendant" else r"base"
  | none => r"base"

/-- sort_key_season from map_mmr_to_henrik in src/valo_mmr.py: the
(episode, act) pair, or (999, 999) when the short code does not parse. -/
def sort_key_season (sid : PyStr) : Int × Int :=
  let short := season_short sid
  if pyStartsWith short 'e' then
    let parts := splitOnChar 'a' (short.drop 1)
    if parts.length = 2 then
      match pyInt (parts.headD []), pyInt (parts.getD 1 []) with
      | some ep, some act => (ep, act)
      | _, _ => (999, 999)
    else (999, 999)
  else (999, 999)

/-- One entry of SeasonalInfoBySeasonID.  Every numeric field is read by
the code with a zero default, so an absent field is folded into 0; the
WinsByTier dict is the list of (int key, count) pairs in insertion order,
with the absent dict folded into the empty list (the code reads it with
default {} or checks truthiness, so the two are indistinguishable). -/
structure SeasonData where
  competitiveTier : Int := 0
  rankedRating : Int := 0
  numberOfWins : Int := 0
  numberOfGames : Int := 0
  leaderboardRank : Int := 0
  rankProtectionFirstPlateau : Int := 0
  winsByTier : List (Int × Int) := []
  deriving DecidableEq, Inhabited

/-- LatestCompetitiveUpdate fields the two aggregators read; each field
is `none` when absent from the record. -/
structure LatestUpdate where
  seasonID : Option PyStr := none
  rankedRatingEarned : Option Int := none
  afkPenalty : Option Int := none
  matchStartTime : Option Int := none
  tierAfterUpdate : Option Int := none
  rankedRatingAfterUpdate : Option Int := none
  deriving DecidableEq, Inhabited

/-- QueueSkills.competitive fields the aggregators read. -/
structure QueueData where
  seasonalInfoBySeasonID : List (PyStr × SeasonData) := []
  currentSeasonGamesNeededForRating : Int := 0
  deriving DecidableEq, Inhabited

/-- The player MMR body, restricted to what map_mmr_to_henrik reads.
`queueCompetitive = none` models QueueSkills.competitive absent or falsy
(the code guards `... if queue else {}`); `latestCompetitiveUpdate = none`
models LatestCompetitiveUpdate absent, None or empty (the code normalises
with `or {}` and tests dict truthiness). -/
structure MMRInput where
  queueCompetitive : Option QueueData := none
  latestCompetitiveUpdate : Option LatestUpdate := none
  deriving DecidableEq, Inhabited

/-- One competitive-update entry, restricted to the fields the aggregator
reads: `u.get("SeasonID")` and `u.get("MatchStartTime", 0)`. -/
structure MatchUpdate where
  seasonID : Option PyStr := none
  matchStartTime : Int := 0
  deriving DecidableEq, Inhabited

/-- `seasonal = queue.get("SeasonalInfoBySeasonID", {}) if queue else {}`. -/
def seasonalInfoOf (mmr : MMRInput) : List (PyStr × SeasonData) :=
  match mmr.queueCompetitive with
  | none => []
  | some q => q.seasonalInfoBySeasonID

/-- to_iso from map_mmr_to_henrik with the ISO-8601 rendering abstracted
to the rendered millisecond value: a falsy (zero) timestamp falls back to
the ambient wall clock `now`. -/
def to_iso (now : Int) (ts_ms : Int) : Int := if ts_ms = 0 then now else ts_ms

/-- `max((int(t) for t in wins_by_tier.keys()), default=0)`: the largest
tier key, counts not consulted. -/
def maxWinsTier (wbt : List (Int × Int)) : Int := pyMax (wbt.map (·.1)) 0

/-- One iteration of the peak-scanning loop of map_mmr_to_henrik over the
running (peak_tier, peak_rr, peak_season_id) state. -/
def peakStep (st : Int × Int × Option PyStr) (e : PyStr × SeasonData) :
    Int × Int × Option PyStr :=
  if e.2.winsByTier.isEmpty then st
  else
    let m := maxWinsTier e.2.winsByTier
    if st.1 < m then (m, e.2.rankedRating, some e.1)
    else if m = st.1 ∧ st.2.1 < e.2.rankedRating then (st.1, e.2.rankedRating, some e.1)
    else st

/-- The peak-scanning loop of map_mmr_to_henrik: fold over the seasonal
entries in iteration order starting from (0, 0, None). -/
def peakOf (seasonal : List (PyStr × SeasonData)) : Int × Int × Option PyStr :=
  seasonal.foldl peakStep (0, 0, none)

/-- The ELO formula of map_mmr_to_henrik:
`((tier - 3) * 100) + (rr % 100) if tier >= 3 else 0`. -/
def numeric_estimate (tier rr : Int) : Int :=
  if 3 ≤ tier then (tier - 3) * 100 + rr % 100 else 0

/-- build_act_wins from map_mmr_to_henrik: expand WinsByTier into one
(id, name) entry per win, then Python-stable-sort by id descending. -/
def build_act_wins (wbt : List (Int × Int)) (short : PyStr) : List (Int × String) :=
  if wbt.isEmpty then []
  else
    stableSort (fun y x => decide (x.1 ≤ y.1))
      (wbt.flatMap fun tc => List.replicate tc.2.toNat (tc.1, get_tier_name tc.1 short))

/-- The latest update timestamp the aggregator computes for one season:
`max([u.get("MatchStartTime", 0) for u in updates if u.get("SeasonID") == sid], default=0)`. -/
def latestTimeFor (updates : List MatchUpdate) (sid : PyStr) : Int :=
  pyMax ((updates.filter fun u => u.seasonID = some sid).map (·.matchStartTime)) 0

/-- One element of the seasonal breakdown list of the output report; the
leaderboard placement is (rank, updated_at-millisecond) or `none`. -/
structure SeasonSummary where
  seasonId : PyStr
  seasonShort : PyStr
  wins : Int
  games : Int
  endTierId : Int
  endTierName : String
  endRR : Int
  rankingSchema : String
  leaderboardPlacement : Option (Int × Int)
  actWins : List (Int × String)
  deriving DecidableEq

/-- The "current" object of the output report. -/
structure CurrentSection where
  tierId : Int
  tierName : String
  rr : Int
  lastChange : Int
  elo : Int
  gamesNeededForRating : Int
  rankProtectionShields : Int
  leaderboardPlacement : Option (Int × Int)
  deriving DecidableEq

/-- The "peak" object of the output report. -/
structure PeakSection where
  seasonId : PyStr
  seasonShort : PyStr
  rankingSchema : String
  tierId : Int
  tierName : String
  rr : Int
  deriving DecidableEq

/-- The report map_mmr_to_henrik returns (status and data flattened). -/
structure Report where
  status : Int
  name : String
  tag : String
  puuid : String
  peak : PeakSection
  current : CurrentSection
  seasonal : List SeasonSummary
  deriving DecidableEq

/-- The loop body of the seasonal-breakdown construction: `continue` for
seasons whose short code does not start with 'e', otherwise the emitted
summary.  The lookup's default is unreachable: the sid always comes from
the key list. -/
def seasonSummaryFor (now : Int) (seasonal : List (PyStr × SeasonData))
    (updates : List MatchUpdate) (sid : PyStr) : Option SeasonSummary :=
  let short := season_short sid
  if ¬pyStartsWith short 'e' then none
  else
    let d := (seasonal.lookup sid).getD {}
    some
      { seasonId := sid
        seasonShort := season_short sid
        wins := d.numberOfWins
        games := d.numberOfGames
        endTierId := d.competitiveTier
        endTierName := get_tier_name d.competitiveTier short
        endRR := d.rankedRating
        rankingSchema := get_ranking_schema sid
        leaderboardPlacement :=
          if 0 < d.leaderboardRank then
            some (d.leaderboardRank, to_iso now (latestTimeFor updates sid))
          else none
        actWins := build_act_wins d.winsByTier short }

/-- `current_data` of map_mmr_to_henrik: the entry of the lexicographically
greatest season id (`sorted(seasonal.keys())[-1]`), `none` when the rating
record is empty. -/
def currentDataOf (seasonal : List (PyStr × SeasonData)) : Option SeasonData :=
  (lexLastKey (seasonal.map (·.1))).bind fun sid => seasonal.lookup sid

/-- map_mmr_to_henrik from src/valo_mmr.py.  `now` is the wall clock that
`datetime.now(UTC)` would read inside to_iso. -/
def map_mmr_to_henrik (game_name tag_line puuid : String) (mmr : MMRInput)
    (updates : List MatchUpdate) (now : Int) : Report :=
  let seasonal := seasonalInfoOf mmr
  let lcu := mmr.latestCompetitiveUpdate
  let pk := peakOf seasonal
  let peak_sid := pk.2.2.getD []
  let current_sid : Option PyStr := lexLastKey (seasonal.map (·.1))
  let current_data : Option SeasonData := currentDataOf seasonal
  let current_tier := (current_data.map (·.competitiveTier)).getD 0
  let current_rr := (current_data.map (·.rankedRating)).getD 0
  { status := 200
    name := game_name
    tag := tag_line
    puuid := puuid
    peak :=
      { seasonId := peak_sid
        seasonShort := season_short peak_sid
        rankingSchema := get_ranking_schema peak_sid
        tierId := pk.1
        tierName := get_tier_name pk.1 (season_short peak_sid)
        rr := pk.2.1 }
    current :=
      { tierId := current_tier
        tierName := get_tier_name current_tier (season_short (current_sid.getD []))
        rr := current_rr
        lastChange := (lcu.bind (·.rankedRatingEarned)).getD 0
        elo := numeric_estimate current_tier current_rr
        gamesNeededForRating := (mmr.queueCompetitive.map (·.currentSeasonGamesNeededForRating)).getD 0
        rankProtectionShields := (current_data.map (·.rankProtectionFirstPlateau)).getD 0
        leaderboardPlacement :=
          if 0 < (current_data.map (·.leaderboardRank)).getD 0 then
            some ((current_data.map (·.leaderboardRank)).getD 0,
              to_iso now ((lcu.bind (·.matchStartTime)).getD 0))
          else none }
    seasonal :=
      (stableSort (fun a b => tupLeB (sort_key_season a) (sort_key_season b))
          (seasonal.map (·.1))).filterMap
        (seasonSummaryFor now seasonal updates) }

end ValoMMR

namespace GetValoMMR

open ValoMMR in
/-- The current-season selection of map_mmr_to_henrik in
src/get_valo_mmr.py when no act filter is supplied (act_id = ""):
returns (current_season_id, current_tier, current_rr), with the season id
[] standing for the Python None kept when the rating record is empty.
With act_id empty `is_current_act` is True on every path, so tier and
rating come from LatestCompetitiveUpdate whenever that dict is nonempty,
and from the selected season's aggregate otherwise. -/
def current_selection (mmr : ValoMMR.MMRInput) : PyStr × Int × Int :=
  let seasonal := ValoMMR.seasonalInfoOf mmr
  let lcu := mmr.latestCompetitiveUpdate
  let latest_sid := (lcu.bind (·.seasonID)).getD []
  if seasonal.isEmpty then ([], 0, 0)
  else
    let csid :=
      if ¬latest_sid.isEmpty ∧ (seasonal.lookup latest_sid).isSome then latest_sid
      else (lexLastKey (seasonal.map (·.1))).getD []
    let cdata := (seasonal.lookup csid).getD {}
    match lcu with
    | some u => (csid, u.tierAfterUpdate.getD cdata.competitiveTier,
        u.rankedRatingAfterUpdate.getD 0)
    | none => (csid, cdata.competitiveTier, cdata.rankedRating)

end GetValoMMR

namespace SpecModel

open ValoMMR

/-- The peak rule as amended: scan the seasons in iteration order; a
season with a nonempty wins_by_tier whose largest recorded tier key (win
counts not consulted) strictly exceeds the running peak tier replaces the
peak, taking that season's end rating; on an equal largest tier a
strictly higher end-of-season rating replaces rating and season; every
other season leaves the peak unchanged.  Chronology and the season
catalog are never consulted. -/
def peakRule : Int × Int × Option PyStr → List (PyStr × SeasonData) → Int × Int × Option PyStr
  | st, [] => st
  | (t, r, sid), (k, d) :: rest =>
    if d.winsByTier.isEmpty then peakRule (t, r, sid) rest
    else if t < maxWinsTier d.winsByTier then
      peakRule (maxWinsTier d.winsByTier, d.rankedRating, some k) rest
    else if maxWinsTier d.winsByTier = t ∧ r < d.rankedRating then
      peakRule (t, d.rankedRating, some k) rest
    else peakRule (t, r, sid) rest

/-- Modelled from the claim text of C3 (the spec's unamended words), used
only to exhibit the divergence: the per-season maximum tier id having a
NONZERO win count. -/
def claimMaxNonzeroWinTier (wbt : List (Int × Int)) : Int :=
  pyMax ((wbt.filter fun tc => 0 < tc.2).map (·.1)) 0

/-- Modelled from the claim text of C3 (the spec's unamended words): the
peak scan using `claimMaxNonzeroWinTier`, where a season with no
nonzero-count tier never becomes the peak. -/
def claimPeakRule : Int × Int × Option PyStr → List (PyStr × SeasonData) → Int × Int × Option PyStr
  | st, [] => st
  | (t, r, sid), (k, d) :: rest =>
    if (d.winsByTier.filter fun tc => 0 < tc.2).isEmpty then claimPeakRule (t, r, sid) rest
    else if t < claimMaxNonzeroWinTier d.winsByTier then
      claimPeakRule (claimMaxNonzeroWinTier d.winsByTier, d.rankedRating, some k) rest
    else if claimMaxNonzeroWinTier d.winsByTier = t ∧ r < d.rankedRating then
      claimPeakRule (t, d.rankedRating, some k) rest
    else claimPeakRule (t, r, sid) rest

/-- The (peak tier, peak rating) projection of one peak-scan step, as a
binary maximum in the lexicographic order on (tier, rating). -/
def lexPairMax (a b : Int × Int) : Int × Int :=
  if a.1 < b.1 ∨ (a.1 = b.1 ∧ a.2 < b.2) then b else a

/-- The (max tier, end rating) key a season contributes to the peak scan,
`none` for a season with an empty wins_by_tier. -/
def seasonPeakKey (e : PyStr × SeasonData) : Option (Int × Int) :=
  if e.2.winsByTier.isEmpty then none
  else some (maxWinsTier e.2.winsByTier, e.2.rankedRating)

/-- The inputs give every to_iso call of map_mmr_to_henrik a nonzero
timestamp, so the wall-clock fallback is never taken: every season
emitted with a positive leaderboard rank has a matching match update
with a nonzero maximal start time, and if the current season's data has
a positive leaderboard rank then the latest-competitive-update record
carries a nonzero match start time. -/
def noClockFallback (mmr : MMRInput) (updates : List MatchUpdate) : Prop :=
  (∀ p ∈ seasonalInfoOf mmr, 0 < p.2.leaderboardRank → latestTimeFor updates p.1 ≠ 0) ∧
  (0 < ((currentDataOf (seasonalInfoOf mmr)).map (·.leaderboardRank)).getD 0 →
    (mmr.latestCompetitiveUpdate.bind (·.matchStartTime)).getD 0 ≠ 0)

end SpecModel

namespace Cx

open ValoMMR

/-- C1 input: two seasons — e9a1 (uuid 476b0893…, tier 15, rr 5) and
e10a2 (uuid 1611cbeb…, tier 18, rr 40) — plus a latest competitive
update naming the e10a2 season with post-match tier 21, rating 30. -/
def mmrC1 : MMRInput :=
  { queueCompetitive := some
      { seasonalInfoBySeasonID :=
          [ (pstr r"476b0893-4c2e-abd6-c5fe-708facff0772",
              { competitiveTier := 15, rankedRating := 5 }),
            (pstr r"1611cbeb-c1e6-d92d-22f6-8a8084e4c5a7",
              { competitiveTier := 18, rankedRating := 40 }) ] }
    latestCompetitiveUpdate := some
      { seasonID := some (pstr r"1611cbeb-c1e6-d92d-22f6-8a8084e4c5a7")
        tierAfterUpdate := some 21
        rankedRatingAfterUpdate := some 30 } }

/-- C2 input: a present competitive queue whose SeasonalInfoBySeasonID
mapping is empty. -/
def mmrC2 : MMRInput := { queueCompetitive := some { seasonalInfoBySeasonID := [] } }

/-- C3 input: one season whose WinsByTier records tier 20 with zero wins
and tier 5 with three wins, end rating 7. -/
def mmrC3 : MMRInput :=
  { queueCompetitive := some
      { seasonalInfoBySeasonID :=
          [ (pstr r"a16955a5-4ad0-f761-5e9e-389df1c892fb",
              { rankedRating := 7, winsByTier := [(20, 0), (5, 3)] }) ] } }

/-- C4 input: one season whose identifier is absent from the catalog but
begins with the letter e, so its placeholder short code "e000" starts
with 'e' yet fails the (episode, act) parse. -/
def mmrC4 : MMRInput :=
  { queueCompetitive := some
      { seasonalInfoBySeasonID :=
          [ (pstr r"e0000000-0000-0000-0000-000000000000", {}) ] } }

/-- C8 seasons: identical standings (max winsByTier tier 10, rating 50)
under two distinct identifiers. -/
def seasC8 : ValoMMR.SeasonData := { rankedRating := 50, winsByTier := [(10, 1)] }

/-- C8 input, iteration order a then b. -/
def mmrC8ab : MMRInput :=
  { queueCompetitive := some
      { seasonalInfoBySeasonID := [(pstr r"a", seasC8), (pstr r"b", seasC8)] } }

/-- C8 input, iteration order b then a. -/
def mmrC8ba : MMRInput :=
  { queueCompetitive := some
      { seasonalInfoBySeasonID := [(pstr r"b", seasC8), (pstr r"a", seasC8)] } }

/-- C9 witness input: one leaderboard-ranked e8a3 season, a latest
update with a nonzero match start time, and one matching match update. -/
def mmrC9 : MMRInput :=
  { queueCompetitive := some
      { seasonalInfoBySeasonID :=
          [ (pstr r"4539cac3-47ae-90e5-3d01-b3812ca3274e",
              { competitiveTier := 24, rankedRating := 12, leaderboardRank := 2,
                winsByTier := [(22, 1), (24, 2)] }) ] }
    latestCompetitiveUpdate := some { matchStartTime := some 555 } }

/-- C9 witness updates list. -/
def updC9 : List ValoMMR.MatchUpdate :=
  [ { seasonID := some (pstr r"4539cac3-47ae-90e5-3d01-b3812ca3274e"),
      matchStartTime := 1700 } ]

end Cx


section ListLemmas

variable {α β : Type _}

theorem lookup_mem [BEq α] [LawfulBEq α] {l : List (α × β)} {k : α} {v : β}
    (h : l.lookup k = some v) : (k, v) ∈ l := by
  induction l with
  | nil => cases h
  | cons p rest ih =>
    obtain ⟨a, b⟩ := p
    rw [List.lookup_cons] at h
    by_cases hk : k == a
    · simp only [hk] at h
      cases h
      have : k = a := eq_of_beq hk
      subst this
      exact List.mem_cons_self _ _
    · simp only [Bool.not_eq_true] at hk
      rw [hk] at h
      exact List.mem_cons_of_mem _ (ih h)

theorem lookup_isSome_of_mem_keys [BEq α] [LawfulBEq α] {l : List (α × β)} {k : α}
    (h : k ∈ l.map Prod.fst) : (l.lookup k).isSome := by
  induction l with
  | nil => simp at h
  | cons p rest ih =>
    obtain ⟨a, b⟩ := p
    rw [List.lookup_cons]
    by_cases hk : k == a
    · simp [hk]
    · simp only [Bool.not_eq_true] at hk
      rw [hk]
      apply ih
      rcases List.mem_cons.1 h with h1 | h1
      · exact absurd (by simp [h1] : k == a) (by simp [hk])
      · exact h1

theorem mem_keys_of_lookup_isSome [BEq α] [LawfulBEq α] {l : List (α × β)} {k : α}
    (h : (l.lookup k).isSome) : k ∈ l.map Prod.fst := by
  rcases ho : l.lookup k with _ | v
  · rw [ho] at h; cases h
  · exact List.mem_map.2 ⟨(k, v), lookup_mem ho, rfl⟩

theorem lookup_eq_none_of_not_mem_keys [BEq α] [LawfulBEq α] {l : List (α × β)} {k : α}
    (h : k ∉ l.map Prod.fst) : l.lookup k = none := by
  rcases ho : l.lookup k with _ | v
  · rfl
  · exact absurd (mem_keys_of_lookup_isSome (by simp [ho])) h

theorem filterMap_congr_mem {f g : α → Option β} {l : List α}
    (h : ∀ a ∈ l, f a = g a) : l.filterMap f = l.filterMap g := by
  induction l with
  | nil => rfl
  | cons x xs ih =>
    rw [List.filterMap_cons, List.filterMap_cons, h x (List.mem_cons_self _ _),
      ih fun a ha => h a (List.mem_cons_of_mem _ ha)]

theorem filterMap_guard_eq_filter (p : α → Bool) (l : List α) :
    l.filterMap (fun a => if p a then some a else none) = l.filter p := by
  induction l with
  | nil => rfl
  | cons x xs ih =>
    by_cases h : p x <;> simp [List.filterMap_cons, List.filter_cons, h, ih]

end ListLemmas

section OrderLemmas

theorem listLt_irrefl (s : PyStr) : listLt s s = false := by
  induction s with
  | nil => rfl
  | cons c cs ih => simp [listLt, ih]

theorem listLt_asymm : ∀ {a b : PyStr}, listLt a b = true → listLt b a = false
  | [], [], h => by cases h
  | [], _ :: _, _ => rfl
  | _ :: _, [], h => by cases h
  | a :: as, b :: bs, h => by
    by_cases hab : a < b
    · have hba := lt_asymm hab
      simp [listLt, hab, hba]
    · by_cases hba : b < a
      · simp [listLt, hab, hba] at h
      · simp only [listLt, if_neg hab, if_neg hba] at h
        simp [listLt, hab, hba, listLt_asymm h]

theorem tupLeB_total (a b : Int × Int) : tupLeB a b = true ∨ tupLeB b a = true := by
  unfold tupLeB
  split_ifs <;> simp_all
  omega

theorem tupLeB_trans {a b c : Int × Int} (h1 : tupLeB a b = true) (h2 : tupLeB b c = true) :
    tupLeB a c = true := by
  unfold tupLeB at h1 h2 ⊢
  split_ifs at h1 h2 ⊢ <;> simp_all <;> omega

end OrderLemmas

section LexLastLemmas

theorem lexLastKey_eq_foldl (keys : List PyStr) : lexLastKey keys = keys.foldl lexStep none := rfl

theorem lexStep_of_le {a k : PyStr} (h : listLt k a = true ∨ k = a) :
    lexStep (some a) k = some a := by
  rcases h with h | h
  · simp [lexStep, listLt_asymm h]
  · subst h; simp [lexStep, listLt_irrefl]

theorem foldl_lexStep_dominated {sid : PyStr} :
    ∀ (l : List PyStr), (∀ k ∈ l, listLt k sid = true ∨ k = sid) →
      l.foldl lexStep (some sid) = some sid := by
  intro l
  induction l with
  | nil => intro _; rfl
  | cons k ks ih =>
    intro h
    rw [List.foldl_cons, lexStep_of_le (h k (List.mem_cons_self _ _))]
    exact ih fun x hx => h x (List.mem_cons_of_mem _ hx)

theorem foldl_lexStep_reaches {sid : PyStr} :
    ∀ (l : List PyStr) (a : PyStr), sid ∈ l →
      (∀ k ∈ l, listLt k sid = true ∨ k = sid) →
      (listLt a sid = true ∨ a = sid) →
      l.foldl lexStep (some a) = some sid := by
  intro l
  induction l with
  | nil => intro a hmem _ _; exact absurd hmem (List.not_mem_nil _)
  | cons k ks ih =>
    intro a hmem hdom ha
    rw [List.foldl_cons]
    by_cases hks : sid ∈ ks
    · have hstep : ∃ x, lexStep (some a) k = some x ∧ (listLt x sid = true ∨ x = sid) := by
        simp only [lexStep]
        split_ifs with h1
        · exact ⟨k, rfl, hdom k (List.mem_cons_self _ _)⟩
        · exact ⟨a, rfl, ha⟩
      obtain ⟨x, hx, hxd⟩ := hstep
      rw [hx]
      exact ih x hks (fun z hz => hdom z (List.mem_cons_of_mem _ hz)) hxd
    · have hk : k = sid := by
        rcases List.mem_cons.1 hmem with h | h
        · exact h.symm
        · exact absurd h hks
      subst hk
      have hstep : lexStep (some a) k = some k := by
        rcases ha with ha | ha
        · simp [lexStep, ha]
        · subst ha; simp [lexStep, listLt_irrefl]
      rw [hstep]
      exact foldl_lexStep_dominated ks fun x hx =>
        hdom x (List.mem_cons_of_mem _ hx)

/-- `sorted(keys)[-1]` is the lexicographic maximum of the key list. -/
theorem lexLastKey_eq_max {keys : List PyStr} {sid : PyStr} (hmem : sid ∈ keys)
    (hdom : ∀ k ∈ keys, listLt k sid = true ∨ k = sid) :
    lexLastKey keys = some sid := by
  rw [lexLastKey_eq_foldl]
  cases keys with
  | nil => cases hmem
  | cons k ks =>
    rw [List.foldl_cons]
    show (ks.foldl lexStep (some k)) = some sid
    by_cases hks : sid ∈ ks
    · exact foldl_lexStep_reaches ks k hks
        (fun x hx => hdom x (List.mem_cons_of_mem _ hx))
        (hdom k (List.mem_cons_self _ _))
    · have hk : k = sid := by
        rcases List.mem_cons.1 hmem with h | h
        · exact h.symm
        · exact absurd h hks
      subst hk
      exact foldl_lexStep_dominated ks fun x hx => hdom x (List.mem_cons_of_mem _ hx)

end LexLastLemmas

section StableSortLemmas

variable {α : Type _} {stays : α → α → Bool}

theorem stableInsert_perm (stays : α → α → Bool) (x : α) :
    ∀ l : List α, (stableInsert stays x l).Perm (x :: l)
  | [] => List.Perm.refl _
  | y :: ys => by
    unfold stableInsert
    split_ifs with h
    · exact ((stableInsert_perm stays x ys).cons y).trans (List.Perm.swap x y ys)
    · exact List.Perm.refl _

theorem stableSort_perm (stays : α → α → Bool) (l : List α) :
    (stableSort stays l).Perm l := by
  suffices h : ∀ (l acc : List α),
      (l.foldl (fun acc x => stableInsert stays x acc) acc).Perm (acc ++ l) by
    simpa using h l []
  intro l
  induction l with
  | nil => intro acc; simp
  | cons x xs ih =>
    intro acc
    rw [List.foldl_cons]
    have h1 : (stableInsert stays x acc ++ xs).Perm ((x :: acc) ++ xs) :=
      List.Perm.append_right xs (stableInsert_perm stays x acc)
    have h2 : ((x :: acc) ++ xs).Perm (acc ++ x :: xs) := by
      rw [List.cons_append]
      exact List.perm_middle.symm
    exact (ih (stableInsert stays x acc)).trans (h1.trans h2)

theorem mem_stableInsert {x z : α} {l : List α}
    (h : z ∈ stableInsert stays x l) : z = x ∨ z ∈ l := by
  have := (stableInsert_perm stays x l).mem_iff.1 h
  simpa using this

theorem stableInsert_pairwise
    (htot : ∀ a b, stays a b = true ∨ stays b a = true)
    (htrans : ∀ a b c, stays a b = true → stays b c = true → stays a c = true)
    (x : α) :
    ∀ {l : List α}, l.Pairwise (fun a b => stays a b = true) →
      (stableInsert stays x l).Pairwise (fun a b => stays a b = true) := by
  intro l
  induction l with
  | nil => intro _; simp [stableInsert]
  | cons y ys ih =>
    intro h
    rcases List.pairwise_cons.1 h with ⟨hy, hys⟩
    unfold stableInsert
    split_ifs with hst
    · refine List.pairwise_cons.2 ⟨?_, ih hys⟩
      intro z hz
      rcases mem_stableInsert hz with rfl | hz
      · exact hst
      · exact hy z hz
    · have hxy : stays x y = true := by
        rcases htot x y with h1 | h1
        · exact h1
        · exact absurd h1 (by simp [hst])
      refine List.pairwise_cons.2 ⟨?_, h⟩
      intro z hz
      rcases List.mem_cons.1 hz with rfl | hz
      · exact hxy
      · exact htrans x y z hxy (hy z hz)

theorem stableSort_pairwise
    (htot : ∀ a b, stays a b = true ∨ stays b a = true)
    (htrans : ∀ a b c, stays a b = true → stays b c = true → stays a c = true)
    (l : List α) :
    (stableSort stays l).Pairwise (fun a b => stays a b = true) := by
  suffices h : ∀ (l acc : List α), acc.Pairwise (fun a b => stays a b = true) →
      (l.foldl (fun acc x => stableInsert stays x acc) acc).Pairwise
        (fun a b => stays a b = true) by
    exact h l [] (by simp)
  intro l
  induction l with
  | nil => intro acc hacc; exact hacc
  | cons x xs ih =>
    intro acc hacc
    rw [List.foldl_cons]
    exact ih _ (stableInsert_pairwise htot htrans x hacc)

end StableSortLemmas

section PeakLemmas

open ValoMMR SpecModel

instance : RightCommutative lexPairMax :=
  ⟨by
    intro b x y
    obtain ⟨b1, b2⟩ := b
    obtain ⟨x1, x2⟩ := x
    obtain ⟨y1, y2⟩ := y
    simp only [lexPairMax]
    split_ifs <;> simp_all only [Prod.mk.injEq, not_or, not_and, not_lt] <;>
      constructor <;> omega⟩

theorem peakRule_eq_foldl :
    ∀ (l : List (PyStr × ValoMMR.SeasonData)) (st : Int × Int × Option PyStr),
      peakRule st l = l.foldl ValoMMR.peakStep st := by
  intro l
  induction l with
  | nil => intro st; rfl
  | cons e rest ih =>
    intro st
    obtain ⟨t, r, sid⟩ := st
    obtain ⟨k, d⟩ := e
    rw [List.foldl_cons]
    simp only [peakRule, peakStep]
    split_ifs <;> exact ih _

theorem peakStep_pair (st : Int × Int × Option PyStr) (e : PyStr × ValoMMR.SeasonData) :
    ((peakStep st e).1, (peakStep st e).2.1) =
      (match seasonPeakKey e with
        | none => (st.1, st.2.1)
        | some k => lexPairMax (st.1, st.2.1) k) := by
  obtain ⟨t, r, sid⟩ := st
  obtain ⟨k, d⟩ := e
  cases he : d.winsByTier.isEmpty with
  | true => simp [peakStep, seasonPeakKey, he]
  | false =>
    have hR : seasonPeakKey (k, d) = some (maxWinsTier d.winsByTier, d.rankedRating) := by
      simp [seasonPeakKey, he]
    rw [hR]
    show ((peakStep (t, r, sid) (k, d)).1, (peakStep (t, r, sid) (k, d)).2.1) =
      lexPairMax (t, r) (maxWinsTier d.winsByTier, d.rankedRating)
    simp only [peakStep, he, Bool.false_eq_true, if_false, lexPairMax]
    split_ifs <;>
      first
        | rfl
        | (apply Prod.ext <;> simp <;> omega)

theorem peak_pair_char :
    ∀ (l : List (PyStr × ValoMMR.SeasonData)) (st : Int × Int × Option PyStr),
      ((l.foldl peakStep st).1, (l.foldl peakStep st).2.1) =
        (l.filterMap seasonPeakKey).foldl lexPairMax (st.1, st.2.1) := by
  intro l
  induction l with
  | nil => intro st; rfl
  | cons e rest ih =>
    intro st
    rw [List.foldl_cons, List.filterMap_cons]
    rcases hk : seasonPeakKey e with _ | k
    · have : ((peakStep st e).1, (peakStep st e).2.1) = (st.1, st.2.1) := by
        rw [peakStep_pair, hk]
      rw [ih (peakStep st e), this]
    · have : ((peakStep st e).1, (peakStep st e).2.1) = lexPairMax (st.1, st.2.1) k := by
        rw [peakStep_pair, hk]
      rw [List.foldl_cons, ih (peakStep st e), this]

/-- Peak tier and peak rating are invariant under permutation of the
season map's iteration order. -/
theorem peakOf_pair_perm {l₁ l₂ : List (PyStr × ValoMMR.SeasonData)} (h : l₁.Perm l₂) :
    (peakOf l₁).1 = (peakOf l₂).1 ∧ (peakOf l₁).2.1 = (peakOf l₂).2.1 := by
  have h1 := peak_pair_char l₁ (0, 0, none)
  have h2 := peak_pair_char l₂ (0, 0, none)
  have hperm : (l₁.filterMap seasonPeakKey).Perm (l₂.filterMap seasonPeakKey) :=
    h.filterMap seasonPeakKey
  have heq : (l₁.filterMap seasonPeakKey).foldl lexPairMax ((0 : Int), (0 : Int)) =
      (l₂.filterMap seasonPeakKey).foldl lexPairMax ((0 : Int), (0 : Int)) :=
    hperm.foldl_eq _
  unfold peakOf
  have h3 := h1.trans (heq.trans h2.symm)
  rw [Prod.ext_iff] at h3
  simpa using h3

/-- A season with an empty (or absent) wins_by_tier never becomes the
peak season. -/
theorem peak_sid_eligible :
    ∀ (l : List (PyStr × ValoMMR.SeasonData)) (st : Int × Int × Option PyStr) (sid : PyStr),
      (l.foldl peakStep st).2.2 = some sid →
      st.2.2 = some sid ∨ ∃ d, (sid, d) ∈ l ∧ d.winsByTier ≠ [] := by
  intro l
  induction l with
  | nil => intro st sid h; exact Or.inl h
  | cons e rest ih =>
    intro st sid h
    rw [List.foldl_cons] at h
    rcases ih _ sid h with h1 | ⟨d, hd, hne⟩
    · obtain ⟨k, dd⟩ := e
      obtain ⟨t, r, s0⟩ := st
      cases he : dd.winsByTier.isEmpty with
      | true =>
        simp only [peakStep, he, if_true] at h1
        exact Or.inl h1
      | false =>
        simp only [peakStep, he, Bool.false_eq_true, if_false] at h1
        have hdd : dd.winsByTier ≠ [] := by
          intro hnil
          rw [hnil] at he
          cases he
        split_ifs at h1
        · have hk : k = sid := by simpa using h1
          subst hk
          exact Or.inr ⟨dd, List.mem_cons_self _ _, hdd⟩
        · have hk : k = sid := by simpa using h1
          subst hk
          exact Or.inr ⟨dd, List.mem_cons_self _ _, hdd⟩
        · exact Or.inl h1
    · exact Or.inr ⟨d, List.mem_cons_of_mem _ hd, hne⟩

end PeakLemmas

section TierLemmas

open ValoMMR

theorem get_tier_name_of_no_episode {s : PyStr} (h : short_episode s = none) (t : Int) :
    get_tier_name t s = tierMapGet t := by
  simp [get_tier_name, h]

theorem get_tier_name_modern {s : PyStr} {ep : Int} (h : short_episode s = some ep)
    (h5 : 5 ≤ ep) (t : Int) : get_tier_name t s = tierMapGet t := by
  simp [get_tier_name, h, show ¬ep < 5 by omega]

theorem get_tier_name_legacy {s : PyStr} {ep : Int} (h : short_episode s = some ep)
    (h4 : ep < 5) (t : Int) :
    get_tier_name t s =
      (if t = 21 then r"Immortal 1"
       else if t = 22 then r"Immortal 2"
       else if t = 23 then r"Immortal 3"
       else if t = 24 then r"Radiant"
       else tierMapGet t) := by
  simp [get_tier_name, h, h4]

theorem tier_keys_bounded {t : Int} (h : t ∈ TIER_MAP.map Prod.fst) : 0 ≤ t ∧ t ≤ 27 := by
  simp [TIER_MAP] at h
  omega

theorem tierMapGet_out_of_range {t : Int} (h : t < 0 ∨ 27 < t) : tierMapGet t = r"Unknown" := by
  unfold tierMapGet
  rw [lookup_eq_none_of_not_mem_keys]
  · rfl
  · intro hmem
    have := tier_keys_bounded hmem
    omega

theorem tierMapGet_inj_range :
    ∀ n₁ : Nat, n₁ < 25 → ∀ n₂ : Nat, n₂ < 25 →
      tierMapGet (3 + (n₁ : Int)) = tierMapGet (3 + (n₂ : Int)) → n₁ = n₂ := by decide

theorem tierMapGet_ne_unknown_range :
    ∀ n : Nat, n < 25 → tierMapGet (3 + (n : Int)) ≠ r"Unknown" := by decide

end TierLemmas

section ClaimC5

open ValoMMR

/-- C5: for every tier and rating, the numeric rating estimate ("ELO")
equals (tier − 3) × 100 + (rating mod 100) when tier ≥ 3 and 0 when
tier < 3; in particular 391 for tier 6 rating 91, 0 for tier 0 rating 0,
0 for tier 2 rating 50; and the aggregator's reported elo is exactly
this function of the reported current tier and rating. -/
theorem numeric_estimate_spec :
    (∀ tier rr : Int, 3 ≤ tier →
      numeric_estimate tier rr = (tier - 3) * 100 + rr % 100) ∧
    (∀ tier rr : Int, tier < 3 → numeric_estimate tier rr = 0) ∧
    numeric_estimate 6 91 = 391 ∧
    numeric_estimate 0 0 = 0 ∧
    numeric_estimate 2 50 = 0 ∧
    (∀ (n t p : String) (mmr : MMRInput) (updates : List MatchUpdate) (now : Int),
      (map_mmr_to_henrik n t p mmr updates now).current.elo =
        numeric_estimate (map_mmr_to_henrik n t p mmr updates now).current.tierId
          (map_mmr_to_henrik n t p mmr updates now).current.rr) := by
  refine ⟨?_, ?_, by decide, by decide, by decide, ?_⟩
  · intro tier rr h
    simp [numeric_estimate, h]
  · intro tier rr h
    simp [numeric_estimate, show ¬3 ≤ tier by omega]
  · intro n t p mmr updates now
    rfl

/-- Witness for the hypotheses of numeric_estimate_spec. -/
theorem numeric_estimate_spec_witness :
    numeric_estimate 10 42 = (10 - 3) * 100 + 42 % 100 ∧ numeric_estimate 1 99 = 0 :=
  ⟨numeric_estimate_spec.1 10 42 (by decide), numeric_estimate_spec.2.1 1 99 (by decide)⟩

end ClaimC5

section ClaimC6

open ValoMMR

/-- C6: under any season short code naming an episode ≥ 5 (modern
scheme), get_tier_name is non-"Unknown" and injective on tier ids 3–27;
under any short code naming an episode < 5 (legacy scheme), tiers
21–24 return Immortal 1/2/3 and Radiant; and every tier id outside the
0–27 table yields the literal "Unknown" for every short code (the
lookup is a total function: it never raises). -/
theorem tier_label_lookup_spec :
    (∀ (s : PyStr) (ep : Int), short_episode s = some ep → 5 ≤ ep →
      (∀ t : Int, 3 ≤ t → t ≤ 27 → get_tier_name t s ≠ r"Unknown") ∧
      (∀ t₁ t₂ : Int, 3 ≤ t₁ → t₁ ≤ 27 → 3 ≤ t₂ → t₂ ≤ 27 →
        get_tier_name t₁ s = get_tier_name t₂ s → t₁ = t₂)) ∧
    (∀ (s : PyStr) (ep : Int), short_episode s = some ep → ep < 5 →
      get_tier_name 21 s = r"Immortal 1" ∧
      get_tier_name 22 s = r"Immortal 2" ∧
      get_tier_name 23 s = r"Immortal 3" ∧
      get_tier_name 24 s = r"Radiant") ∧
    (∀ (s : PyStr) (t : Int), t < 0 ∨ 27 < t → get_tier_name t s = r"Unknown") := by
  refine ⟨?_, ?_, ?_⟩
  · intro s ep hep h5
    constructor
    · intro t h1 h2
      obtain ⟨n, hn, rfl⟩ : ∃ n : Nat, n < 25 ∧ t = 3 + (n : Int) :=
        ⟨(t - 3).toNat, by omega, by omega⟩
      rw [get_tier_name_modern hep h5]
      exact tierMapGet_ne_unknown_range n hn
    · intro t₁ t₂ h1 h2 h3 h4 heq
      obtain ⟨n₁, hn₁, rfl⟩ : ∃ n : Nat, n < 25 ∧ t₁ = 3 + (n : Int) :=
        ⟨(t₁ - 3).toNat, by omega, by omega⟩
      obtain ⟨n₂, hn₂, rfl⟩ : ∃ n : Nat, n < 25 ∧ t₂ = 3 + (n : Int) :=
        ⟨(t₂ - 3).toNat, by omega, by omega⟩
      rw [get_tier_name_modern hep h5, get_tier_name_modern hep h5] at heq
      have := tierMapGet_inj_range n₁ hn₁ n₂ hn₂ heq
      omega
  · intro s ep hep h4
    have h := get_tier_name_legacy hep h4
    rw [h 21, h 22, h 23, h 24]
    refine ⟨by decide, by decide, by decide, by decide⟩
  · intro s t ht
    rcases hpe : short_episode s with _ | ep
    · rw [get_tier_name_of_no_episode hpe]
      exact tierMapGet_out_of_range ht
    · by_cases h5 : 5 ≤ ep
      · rw [get_tier_name_modern hpe h5]
        exact tierMapGet_out_of_range ht
      · rw [get_tier_name_legacy hpe (by omega)]
        rw [if_neg (by omega), if_neg (by omega), if_neg (by omega), if_neg (by omega)]
        exact tierMapGet_out_of_range ht

/-- Witness for the hypotheses of tier_label_lookup_spec. -/
theorem tier_label_lookup_spec_witness :
    get_tier_name 5 (pstr r"e8a3") ≠ r"Unknown" ∧
    get_tier_name 21 (pstr r"e4a2") = r"Immortal 1" ∧
    get_tier_name 99 (pstr r"e8a3") = r"Unknown" :=
  ⟨(tier_label_lookup_spec.1 (pstr r"e8a3") 8 (by decide) (by decide)).1 5
      (by decide) (by decide),
    (tier_label_lookup_spec.2.1 (pstr r"e4a2") 4 (by decide) (by decide)).1,
    tier_label_lookup_spec.2.2 (pstr r"e8a3") 99 (by decide)⟩

end ClaimC6

section ClaimC7

open ValoMMR

/-- C7 counterexample: the all-zero season identifier fails chronological
parsing (its sort key is the sentinel (999, 999) and it has no parsable
episode), yet get_ranking_schema classifies it "base" — the same value a
legacy (episode < 5) season such as e4a2 receives — not the modern
"ascendant" value the claim requires. -/
theorem unparsed_scheme_base_cx :
    sort_key_season (pstr r"00000000-0000-0000-0000-000000000000") = (999, 999) ∧
    short_episode (season_short (pstr r"00000000-0000-0000-0000-000000000000")) = none ∧
    get_ranking_schema (pstr r"00000000-0000-0000-0000-000000000000") = r"base" ∧
    get_ranking_schema (pstr r"d929bc38-4ab6-7da4-94f0-ee84f8ac141e") = r"base" ∧
    r"base" ≠ r"ascendant" := by decide

/-- C7 amended: a season identifier whose short code has no parsable
episode is classified "base" — the same classification as legacy
(episode < 5) seasons — while a parsable episode yields "ascendant"
exactly when the episode is at least 5. -/
theorem ranking_scheme_amended :
    (∀ sid : PyStr, short_episode (season_short sid) = none →
      get_ranking_schema sid = r"base") ∧
    (∀ (sid : PyStr) (ep : Int), short_episode (season_short sid) = some ep →
      get_ranking_schema sid = if 5 ≤ ep then r"ascendant" else r"base") := by
  constructor
  · intro sid h
    simp [get_ranking_schema, h]
  · intro sid ep h
    simp [get_ranking_schema, h]

/-- Witness for the hypotheses of ranking_scheme_amended. -/
theorem ranking_scheme_amended_witness :
    get_ranking_schema (pstr r"zzzz") = r"base" ∧
    get_ranking_schema (pstr r"ec876e6c-43e8-fa63-ffc1-2e8d4db25525") =
      if (5 : Int) ≤ 10 then r"ascendant" else r"base" :=
  ⟨ranking_scheme_amended.1 (pstr r"zzzz") (by decide),
    ranking_scheme_amended.2 (pstr r"ec876e6c-43e8-fa63-ffc1-2e8d4db25525") 10 (by decide)⟩

end ClaimC7

section ClaimC10

open ValoMMR

/-- C10: under a legacy-scheme season short code (episode < 5) the
tier-label lookup is not injective on 21–27: tiers 25, 26, 27 keep their
modern labels Immortal 2, Immortal 3, Radiant, so 24 and 27 collide on
"Radiant", 22 and 25 on "Immortal 2", and 23 and 26 on "Immortal 3". -/
theorem legacy_label_collisions :
    ∀ (s : PyStr) (ep : Int), short_episode s = some ep → ep < 5 →
      get_tier_name 25 s = r"Immortal 2" ∧
      get_tier_name 26 s = r"Immortal 3" ∧
      get_tier_name 27 s = r"Radiant" ∧
      get_tier_name 24 s = get_tier_name 27 s ∧
      get_tier_name 22 s = get_tier_name 25 s ∧
      get_tier_name 23 s = get_tier_name 26 s ∧
      (24 : Int) ≠ 27 := by
  intro s ep hep h4
  have h := get_tier_name_legacy hep h4
  rw [h 22, h 23, h 24, h 25, h 26, h 27]
  refine ⟨by decide, by decide, by decide, by decide, by decide, by decide, by decide⟩

/-- Witness for the hypotheses of legacy_label_collisions. -/
theorem legacy_label_collisions_witness :
    get_tier_name 24 (pstr r"e1a3") = get_tier_name 27 (pstr r"e1a3") :=
  (legacy_label_collisions (pstr r"e1a3") 1 (by decide) (by decide)).2.2.2.1

end ClaimC10

section ClaimC2

open ValoMMR

/-- C2 counterexample: on an empty SeasonalInfoBySeasonID mapping — and
likewise on an entirely absent competitive queue — the aggregator
returns an ordinary status-200 report whose fields are all zero/empty
("Unrated", elo 0, empty seasonal list); no distinct MissingRatingData
failure is signalled anywhere. -/
theorem empty_rating_zero_report_cx :
    (map_mmr_to_henrik r"n" r"t" r"p" Cx.mmrC2 [] 0).status = 200 ∧
    (map_mmr_to_henrik r"n" r"t" r"p" Cx.mmrC2 [] 0).seasonal = [] ∧
    (map_mmr_to_henrik r"n" r"t" r"p" Cx.mmrC2 [] 0).current.tierId = 0 ∧
    (map_mmr_to_henrik r"n" r"t" r"p" Cx.mmrC2 [] 0).current.rr = 0 ∧
    (map_mmr_to_henrik r"n" r"t" r"p" Cx.mmrC2 [] 0).current.elo = 0 ∧
    (map_mmr_to_henrik r"n" r"t" r"p" Cx.mmrC2 [] 0).current.tierName = r"Unrated" ∧
    (map_mmr_to_henrik r"n" r"t" r"p" Cx.mmrC2 [] 0).peak.tierId = 0 ∧
    (map_mmr_to_henrik r"n" r"t" r"p" ({} : MMRInput) [] 0).status = 200 ∧
    (map_mmr_to_henrik r"n" r"t" r"p" ({} : MMRInput) [] 0).seasonal = [] := by decide

/-- C2 amended: for every input whose rating record is empty or absent,
map_mmr_to_henrik returns an ordinary status-200 report with an empty
seasonal list, zero current tier/rating/elo, the "Unrated" label, no
leaderboard placement and a zero/empty peak — it signals no distinct
failure. -/
theorem empty_rating_report_amended :
    ∀ (n t p : String) (mmr : MMRInput) (updates : List MatchUpdate) (now : Int),
      seasonalInfoOf mmr = [] →
      (map_mmr_to_henrik n t p mmr updates now).status = 200 ∧
      (map_mmr_to_henrik n t p mmr updates now).seasonal = [] ∧
      (map_mmr_to_henrik n t p mmr updates now).current.tierId = 0 ∧
      (map_mmr_to_henrik n t p mmr updates now).current.rr = 0 ∧
      (map_mmr_to_henrik n t p mmr updates now).current.elo = 0 ∧
      (map_mmr_to_henrik n t p mmr updates now).current.tierName = r"Unrated" ∧
      (map_mmr_to_henrik n t p mmr updates now).current.leaderboardPlacement = none ∧
      (map_mmr_to_henrik n t p mmr updates now).peak.tierId = 0 ∧
      (map_mmr_to_henrik n t p mmr updates now).peak.rr = 0 ∧
      (map_mmr_to_henrik n t p mmr updates now).peak.seasonId = [] := by
  intro n t p mmr updates now h
  have hname : get_tier_name 0 (season_short []) = r"Unrated" := by decide
  refine ⟨rfl, ?_, ?_, ?_, ?_, ?_, ?_, ?_, ?_, ?_⟩ <;>
    simp [map_mmr_to_henrik, h, peakOf, currentDataOf, lexLastKey, stableSort,
      numeric_estimate, hname]

/-- Witness for the hypothesis of empty_rating_report_amended. -/
theorem empty_rating_report_amended_witness :
    (map_mmr_to_henrik r"nn" r"tt" r"pp" Cx.mmrC2 [] 7).seasonal = [] ∧
    (map_mmr_to_henrik r"nn" r"tt" r"pp" Cx.mmrC2 [] 7).current.elo = 0 :=
  ⟨(empty_rating_report_amended r"nn" r"tt" r"pp" Cx.mmrC2 [] 7 (by decide)).2.1,
    (empty_rating_report_amended r"nn" r"tt" r"pp" Cx.mmrC2 [] 7 (by decide)).2.2.2.2.1⟩

end ClaimC2

section ClaimC3

open ValoMMR SpecModel

/-- C3 counterexample: with WinsByTier recording tier 20 with ZERO wins
and tier 5 with three wins, the claim's rule (maximum tier with a
nonzero win count) yields peak tier 5, but the aggregator reports peak
tier 20 — the code takes the maximum over the keys and never consults
the win counts. -/
theorem peak_counts_ignored_cx :
    (map_mmr_to_henrik r"n" r"t" r"p" Cx.mmrC3 [] 0).peak.tierId = 20 ∧
    (claimPeakRule (0, 0, none) (seasonalInfoOf Cx.mmrC3)).1 = 5 ∧
    (20 : Int) ≠ 5 := by decide

/-- C3 amended: the aggregator's peak scan equals the rule peakRule —
per season the maximum tier KEY of wins_by_tier (win counts not
consulted), replacing the running peak only on a strictly greater tier,
with ties broken by a strictly higher end-of-season rating; a season
with an empty or absent wins_by_tier never becomes the peak season; the
scan never consults chronology; and the report's peak section carries
exactly the scan's results. -/
theorem peak_rule_amended :
    (∀ seasonal : List (PyStr × SeasonData),
      peakOf seasonal = peakRule (0, 0, none) seasonal) ∧
    (∀ (seasonal : List (PyStr × SeasonData)) (sid : PyStr),
      (peakOf seasonal).2.2 = some sid →
      ∃ d, (sid, d) ∈ seasonal ∧ d.winsByTier ≠ []) ∧
    (∀ (n t p : String) (mmr : MMRInput) (updates : List MatchUpdate) (now : Int),
      (map_mmr_to_henrik n t p mmr updates now).peak.tierId =
        (peakOf (seasonalInfoOf mmr)).1 ∧
      (map_mmr_to_henrik n t p mmr updates now).peak.rr =
        (peakOf (seasonalInfoOf mmr)).2.1 ∧
      (map_mmr_to_henrik n t p mmr updates now).peak.seasonId =
        (peakOf (seasonalInfoOf mmr)).2.2.getD []) := by
  refine ⟨?_, ?_, ?_⟩
  · intro seasonal
    exact (peakRule_eq_foldl seasonal (0, 0, none)).symm
  · intro seasonal sid h
    rcases peak_sid_eligible seasonal (0, 0, none) sid h with h1 | h2
    · cases h1
    · exact h2
  · intro n t p mmr updates now
    exact ⟨rfl, rfl, rfl⟩

/-- Witness for the hypotheses of peak_rule_amended. -/
theorem peak_rule_amended_witness :
    ∃ d, (pstr r"a16955a5-4ad0-f761-5e9e-389df1c892fb", d) ∈ seasonalInfoOf Cx.mmrC3 ∧
      d.winsByTier ≠ [] :=
  peak_rule_amended.2.1 (seasonalInfoOf Cx.mmrC3)
    (pstr r"a16955a5-4ad0-f761-5e9e-389df1c892fb") (by decide)

end ClaimC3

section ClaimC8

open ValoMMR SpecModel

/-- C8 counterexample: two seasons with identical (max tier, end rating)
keys under distinct identifiers; permuting the iteration order changes
the chosen peak SEASON (the first of the tied seasons in iteration order
wins), so peak selection of the full (season, tier, rating) triple is
not order-independent. -/
theorem peak_order_dependent_cx :
    (seasonalInfoOf Cx.mmrC8ab).Perm (seasonalInfoOf Cx.mmrC8ba) ∧
    (map_mmr_to_henrik r"n" r"t" r"p" Cx.mmrC8ab [] 0).peak.seasonId = pstr r"a" ∧
    (map_mmr_to_henrik r"n" r"t" r"p" Cx.mmrC8ba [] 0).peak.seasonId = pstr r"b" ∧
    pstr r"a" ≠ pstr r"b" :=
  ⟨List.Perm.swap (pstr r"b", Cx.seasC8) (pstr r"a", Cx.seasC8) [],
    by decide, by decide, by decide⟩

/-- C8 amended: peak TIER and peak RATING are invariant under every
permutation of the season map's iteration order (the chosen peak season
id is only determined up to ties in (max tier, end rating)). -/
theorem peak_perm_invariant_amended :
    (∀ l₁ l₂ : List (PyStr × SeasonData), l₁.Perm l₂ →
      (peakOf l₁).1 = (peakOf l₂).1 ∧ (peakOf l₁).2.1 = (peakOf l₂).2.1) ∧
    (∀ (n t p : String) (mmr₁ mmr₂ : MMRInput) (u₁ u₂ : List MatchUpdate) (now₁ now₂ : Int),
      (seasonalInfoOf mmr₁).Perm (seasonalInfoOf mmr₂) →
      (map_mmr_to_henrik n t p mmr₁ u₁ now₁).peak.tierId =
        (map_mmr_to_henrik n t p mmr₂ u₂ now₂).peak.tierId ∧
      (map_mmr_to_henrik n t p mmr₁ u₁ now₁).peak.rr =
        (map_mmr_to_henrik n t p mmr₂ u₂ now₂).peak.rr) := by
  constructor
  · intro l₁ l₂ h
    exact peakOf_pair_perm h
  · intro n t p mmr₁ mmr₂ u₁ u₂ now₁ now₂ h
    exact peakOf_pair_perm h

/-- Witness for the hypotheses of peak_perm_invariant_amended. -/
theorem peak_perm_invariant_amended_witness :
    (map_mmr_to_henrik r"n" r"t" r"p" Cx.mmrC8ab [] 0).peak.tierId =
      (map_mmr_to_henrik r"n" r"t" r"p" Cx.mmrC8ba [] 0).peak.tierId ∧
    (map_mmr_to_henrik r"n" r"t" r"p" Cx.mmrC8ab [] 0).peak.rr =
      (map_mmr_to_henrik r"n" r"t" r"p" Cx.mmrC8ba [] 0).peak.rr :=
  peak_perm_invariant_amended.2 r"n" r"t" r"p" Cx.mmrC8ab Cx.mmrC8ba [] [] 0 0
    (List.Perm.swap (pstr r"b", Cx.seasC8) (pstr r"a", Cx.seasC8) [])

end ClaimC8

section ClaimC1

open ValoMMR

/-- C1 counterexample: the rating record holds seasons e9a1 (uuid
476b0893…, tier 15, rr 5) and e10a2 (uuid 1611cbeb…, tier 18, rr 40),
and a latest competitive update naming the e10a2 season with post-match
tier 21, rating 30.  The claim requires the current section to use the
update's season and post-match tier/rating (21, 30); the report instead
shows (15, 5) — the aggregate of the season with the lexicographically
greatest opaque identifier, which is not even the chronologically latest
season (e9a1 sorts after e10a2 as a string). -/
theorem current_ignores_latest_update_cx :
    (map_mmr_to_henrik r"n" r"t" r"p" Cx.mmrC1 [] 0).current.tierId = 15 ∧
    (map_mmr_to_henrik r"n" r"t" r"p" Cx.mmrC1 [] 0).current.rr = 5 ∧
    Cx.mmrC1.latestCompetitiveUpdate = some
      { seasonID := some (pstr r"1611cbeb-c1e6-d92d-22f6-8a8084e4c5a7")
        tierAfterUpdate := some 21
        rankedRatingAfterUpdate := some 30 } ∧
    sort_key_season (pstr r"1611cbeb-c1e6-d92d-22f6-8a8084e4c5a7") = (10, 2) ∧
    sort_key_season (pstr r"476b0893-4c2e-abd6-c5fe-708facff0772") = (9, 1) ∧
    (15 : Int) ≠ 21 ∧ (5 : Int) ≠ 30 := by decide

/-- C1 amended: in valo_mmr's aggregator the current section never
consults the latest-competitive-update record for season, tier or
rating — the current season is always the LEXICOGRAPHICALLY greatest
season id of the rating record (opaque-identifier string order, not the
Chronology Sorter) and its aggregate tier/rating are reported.  In
get_valo_mmr's aggregator (no act filter) the update record's season id
is used whenever it is nonempty and present in the rating record, with
post-match tier/rating taken from the update record; when the update
record is absent the fallback season is again the lexicographically
greatest season id. -/
theorem current_selection_amended :
    (∀ (n t p : String) (mmr : MMRInput) (updates : List MatchUpdate) (now : Int)
        (lcu2 : Option LatestUpdate),
      (map_mmr_to_henrik n t p mmr updates now).current.tierId =
        (map_mmr_to_henrik n t p { mmr with latestCompetitiveUpdate := lcu2 }
          updates now).current.tierId ∧
      (map_mmr_to_henrik n t p mmr updates now).current.rr =
        (map_mmr_to_henrik n t p { mmr with latestCompetitiveUpdate := lcu2 }
          updates now).current.rr) ∧
    (∀ (n t p : String) (mmr : MMRInput) (updates : List MatchUpdate) (now : Int)
        (sid : PyStr) (d : SeasonData),
      (seasonalInfoOf mmr).lookup sid = some d →
      (∀ k ∈ (seasonalInfoOf mmr).map Prod.fst, listLt k sid = true ∨ k = sid) →
      (map_mmr_to_henrik n t p mmr updates now).current.tierId = d.competitiveTier ∧
      (map_mmr_to_henrik n t p mmr updates now).current.rr = d.rankedRating) ∧
    (∀ (mmr : MMRInput) (u : LatestUpdate) (s : PyStr) (d : SeasonData),
      mmr.latestCompetitiveUpdate = some u → u.seasonID = some s → s ≠ [] →
      (seasonalInfoOf mmr).lookup s = some d →
      GetValoMMR.current_selection mmr =
        (s, u.tierAfterUpdate.getD d.competitiveTier,
          u.rankedRatingAfterUpdate.getD 0)) ∧
    (∀ mmr : MMRInput, mmr.latestCompetitiveUpdate = none →
      (GetValoMMR.current_selection mmr).1 =
        (lexLastKey ((seasonalInfoOf mmr).map Prod.fst)).getD []) := by
  refine ⟨?_, ?_, ?_, ?_⟩
  · intro n t p mmr updates now lcu2
    exact ⟨rfl, rfl⟩
  · intro n t p mmr updates now sid d hlk hdom
    have hmem : sid ∈ (seasonalInfoOf mmr).map Prod.fst :=
      List.mem_map.2 ⟨(sid, d), lookup_mem hlk, rfl⟩
    have hlex : lexLastKey ((seasonalInfoOf mmr).map Prod.fst) = some sid :=
      lexLastKey_eq_max hmem hdom
    have hcd : currentDataOf (seasonalInfoOf mmr) = some d := by
      unfold currentDataOf
      rw [hlex]
      exact hlk
    constructor
    · show ((currentDataOf (seasonalInfoOf mmr)).map (·.competitiveTier)).getD 0 =
        d.competitiveTier
      rw [hcd]
      rfl
    · show ((currentDataOf (seasonalInfoOf mmr)).map (·.rankedRating)).getD 0 =
        d.rankedRating
      rw [hcd]
      rfl
  · intro mmr u s d hlcu hsid hne hlk
    have hemp : (seasonalInfoOf mmr).isEmpty = false := by
      cases hsl : seasonalInfoOf mmr
      · rw [hsl] at hlk
        cases hlk
      · rfl
    have hsemp : s.isEmpty = false := by
      cases s
      · exact absurd rfl hne
      · rfl
    simp [GetValoMMR.current_selection, hlcu, hsid, hemp, hsemp, hlk]
  · intro mmr hlcu
    simp only [GetValoMMR.current_selection, hlcu, Option.bind_none, Option.getD_none]
    cases hsl : (seasonalInfoOf mmr).isEmpty
    · simp only [Bool.false_eq_true, if_false]
      have : ¬(([] : PyStr).isEmpty = false) := by simp
      simp [List.isEmpty_nil]
    · have hnil : seasonalInfoOf mmr = [] := List.isEmpty_iff.1 hsl
      simp [hnil, lexLastKey]

/-- Witness for the hypotheses of current_selection_amended. -/
theorem current_selection_amended_witness :
    (map_mmr_to_henrik r"n" r"t" r"p" Cx.mmrC1 [] 0).current.tierId = 15 ∧
    GetValoMMR.current_selection Cx.mmrC1 =
      (pstr r"1611cbeb-c1e6-d92d-22f6-8a8084e4c5a7", 21, 30) := by
  constructor
  · have h := (current_selection_amended.2.1 r"n" r"t" r"p" Cx.mmrC1 [] 0
      (pstr r"476b0893-4c2e-abd6-c5fe-708facff0772")
      { competitiveTier := 15, rankedRating := 5 } (by decide) (by decide)).1
    rw [h]
  · have h := current_selection_amended.2.2.1 Cx.mmrC1
      { seasonID := some (pstr r"1611cbeb-c1e6-d92d-22f6-8a8084e4c5a7")
        tierAfterUpdate := some 21
        rankedRatingAfterUpdate := some 30 }
      (pstr r"1611cbeb-c1e6-d92d-22f6-8a8084e4c5a7")
      { competitiveTier := 18, rankedRating := 40 }
      (by decide) (by decide) (by decide) (by decide)
    rw [h]
    rfl

end ClaimC1

section ClaimC9

open ValoMMR SpecModel

/-- C9: the aggregator is a function of its explicit inputs and the one
piece of ambient state it reads — the wall clock inside to_iso.  When no
to_iso call takes the zero-timestamp fallback (every emitted leaderboard
placement has a matching nonzero timestamp: for seasonal entries the
maximum match_start_time over that season's match updates, for the
current section the latest update's match start time), the report is
identical under any two clock readings, i.e. fully determined by the
inputs. -/
theorem aggregator_clock_determinism :
    ∀ (n t p : String) (mmr : MMRInput) (updates : List MatchUpdate) (now₁ now₂ : Int),
      noClockFallback mmr updates →
      map_mmr_to_henrik n t p mmr updates now₁ = map_mmr_to_henrik n t p mmr updates now₂ := by
  intro n t p mmr updates now₁ now₂ hfall
  obtain ⟨h1, h2⟩ := hfall
  have hto : ∀ ts : Int, ts ≠ 0 → to_iso now₁ ts = to_iso now₂ ts := by
    intro ts h
    simp [to_iso, h]
  have hcur :
      (if 0 < ((currentDataOf (seasonalInfoOf mmr)).map (·.leaderboardRank)).getD 0 then
        some (((currentDataOf (seasonalInfoOf mmr)).map (·.leaderboardRank)).getD 0,
          to_iso now₁ ((mmr.latestCompetitiveUpdate.bind (·.matchStartTime)).getD 0))
      else none) =
      (if 0 < ((currentDataOf (seasonalInfoOf mmr)).map (·.leaderboardRank)).getD 0 then
        some (((currentDataOf (seasonalInfoOf mmr)).map (·.leaderboardRank)).getD 0,
          to_iso now₂ ((mmr.latestCompetitiveUpdate.bind (·.matchStartTime)).getD 0))
      else none) := by
    by_cases hp : 0 < ((currentDataOf (seasonalInfoOf mmr)).map (·.leaderboardRank)).getD 0
    · rw [if_pos hp, if_pos hp, hto _ (h2 hp)]
    · rw [if_neg hp, if_neg hp]
  have hseas :
      (stableSort (fun a b => tupLeB (sort_key_season a) (sort_key_season b))
          ((seasonalInfoOf mmr).map (·.1))).filterMap
        (seasonSummaryFor now₁ (seasonalInfoOf mmr) updates) =
      (stableSort (fun a b => tupLeB (sort_key_season a) (sort_key_season b))
          ((seasonalInfoOf mmr).map (·.1))).filterMap
        (seasonSummaryFor now₂ (seasonalInfoOf mmr) updates) := by
    apply filterMap_congr_mem
    intro sid hmem
    by_cases hsw : pyStartsWith (season_short sid) 'e'
    · by_cases hp : 0 < (((seasonalInfoOf mmr).lookup sid).getD {}).leaderboardRank
      · have hkey : sid ∈ (seasonalInfoOf mmr).map Prod.fst := by
          have h := (stableSort_perm
            (fun a b => tupLeB (sort_key_season a) (sort_key_season b))
            ((seasonalInfoOf mmr).map (·.1))).mem_iff.1 hmem
          simpa using h
        obtain ⟨d, hd⟩ : ∃ d, (seasonalInfoOf mmr).lookup sid = some d :=
          Option.isSome_iff_exists.1 (lookup_isSome_of_mem_keys hkey)
        have hne : latestTimeFor updates sid ≠ 0 := by
          apply h1 (sid, d) (lookup_mem hd)
          rw [hd] at hp
          simpa using hp
        simp [seasonSummaryFor, hsw, hto _ hne]
      · simp [seasonSummaryFor, hsw, hp]
    · simp [seasonSummaryFor, hsw]
  simp only [map_mmr_to_henrik]
  rw [hcur, hseas]

/-- Witness for the hypothesis of aggregator_clock_determinism. -/
theorem aggregator_clock_determinism_witness :
    map_mmr_to_henrik r"n" r"t" r"p" Cx.mmrC9 Cx.updC9 99 =
      map_mmr_to_henrik r"n" r"t" r"p" Cx.mmrC9 Cx.updC9 12345 :=
  aggregator_clock_determinism r"n" r"t" r"p" Cx.mmrC9 Cx.updC9 99 12345
    ⟨by decide, by decide⟩

end ClaimC9

section ClaimC4

open ValoMMR

theorem report_seasonal_sids (n t p : String) (mmr : MMRInput)
    (updates : List MatchUpdate) (now : Int) :
    ((map_mmr_to_henrik n t p mmr updates now).seasonal).map (·.seasonId) =
      (stableSort (fun a b => tupLeB (sort_key_season a) (sort_key_season b))
          ((seasonalInfoOf mmr).map (·.1))).filter
        (fun sid => pyStartsWith (season_short sid) 'e') := by
  show ((stableSort (fun a b => tupLeB (sort_key_season a) (sort_key_season b))
      ((seasonalInfoOf mmr).map (·.1))).filterMap
        (seasonSummaryFor now (seasonalInfoOf mmr) updates)).map (·.seasonId) = _
  rw [List.map_filterMap]
  have hfun : ∀ a, (seasonSummaryFor now (seasonalInfoOf mmr) updates a).map (·.seasonId) =
      (if pyStartsWith (season_short a) 'e' then some a else none) := by
    intro a
    by_cases h : pyStartsWith (season_short a) 'e' <;> simp [seasonSummaryFor, h]
  calc ((stableSort (fun a b => tupLeB (sort_key_season a) (sort_key_season b))
        ((seasonalInfoOf mmr).map (·.1))).filterMap
          fun a => (seasonSummaryFor now (seasonalInfoOf mmr) updates a).map (·.seasonId))
      = (stableSort (fun a b => tupLeB (sort_key_season a) (sort_key_season b))
          ((seasonalInfoOf mmr).map (·.1))).filterMap
            (fun a => if pyStartsWith (season_short a) 'e' then some a else none) :=
        filterMap_congr_mem fun a _ => hfun a
    _ = _ := filterMap_guard_eq_filter _ _

/-- C4 counterexample: the unmapped identifier e0000000-… receives the
placeholder short code "e000", which starts with 'e' but fails the
(episode, act) parse (sort key (999, 999)); the season is nevertheless
INCLUDED in the seasonal breakdown, contradicting the claimed exclusion
of every chronologically unparsable season.  Moreover the placeholder of
the unmapped identifier e1a2ffff-… is "e1a2", which parses as (1, 2) and
collides with the catalog code of season 0530b9c4-…, contradicting the
claimed no-collision guarantee. -/
theorem seasonal_breakdown_inclusion_cx :
    (map_mmr_to_henrik r"n" r"t" r"p" Cx.mmrC4 [] 0).seasonal.length = 1 ∧
    ((map_mmr_to_henrik r"n" r"t" r"p" Cx.mmrC4 [] 0).seasonal.map (·.seasonId)) =
      [pstr r"e0000000-0000-0000-0000-000000000000"] ∧
    sort_key_season (pstr r"e0000000-0000-0000-0000-000000000000") = (999, 999) ∧
    season_short (pstr r"e1a2ffff-0000-0000-0000-000000000000") = pstr r"e1a2" ∧
    season_short (pstr r"0530b9c4-4980-f2ee-df5d-09864cd00542") = pstr r"e1a2" ∧
    (pstr r"e1a2ffff-0000-0000-0000-000000000000") ∉ SEASON_MAP.map Prod.fst ∧
    sort_key_season (pstr r"e1a2ffff-0000-0000-0000-000000000000") = (1, 2) := by decide

/-- C4 amended: the seasonal breakdown excludes exactly the seasons whose
short code does not start with 'e' — an unmapped identifier whose
truncated-prefix placeholder starts with 'e' is included even though it
fails the (episode, act) parse, and such a placeholder can collide with
a valid chronological code.  The emitted list is always sorted
non-strictly by the (episode, act) sort key (unparsable codes carry the
sentinel (999, 999) and so come last); when the seasons' sort keys are
pairwise distinct — as they are for identifiers drawn from the season
catalog, whose keys are pairwise distinct — the list is STRICTLY
ascending (non-strict plus sort keys pairwise distinct). -/
theorem seasonal_breakdown_order_amended :
    (∀ (n t p : String) (mmr : MMRInput) (updates : List MatchUpdate) (now : Int),
      ∀ s ∈ (map_mmr_to_henrik n t p mmr updates now).seasonal,
        pyStartsWith (season_short s.seasonId) 'e' = true) ∧
    (∀ (n t p : String) (mmr : MMRInput) (updates : List MatchUpdate) (now : Int),
      ((map_mmr_to_henrik n t p mmr updates now).seasonal).Pairwise
        (fun x y =>
          tupLeB (sort_key_season x.seasonId) (sort_key_season y.seasonId) = true)) ∧
    (∀ (n t p : String) (mmr : MMRInput) (updates : List MatchUpdate) (now : Int),
      ((seasonalInfoOf mmr).map (fun q => sort_key_season q.1)).Nodup →
      ((map_mmr_to_henrik n t p mmr updates now).seasonal).Pairwise
        (fun x y =>
          tupLeB (sort_key_season x.seasonId) (sort_key_season y.seasonId) = true ∧
          sort_key_season x.seasonId ≠ sort_key_season y.seasonId)) ∧
    (SEASON_MAP.map (fun q => sort_key_season q.1)).Nodup := by
  have htot : ∀ a b : PyStr,
      tupLeB (sort_key_season a) (sort_key_season b) = true ∨
      tupLeB (sort_key_season b) (sort_key_season a) = true :=
    fun a b => tupLeB_total _ _
  have htrans : ∀ a b c : PyStr,
      tupLeB (sort_key_season a) (sort_key_season b) = true →
      tupLeB (sort_key_season b) (sort_key_season c) = true →
      tupLeB (sort_key_season a) (sort_key_season c) = true :=
    fun a b c h1 h2 => tupLeB_trans h1 h2
  have hle : ∀ (n t p : String) (mmr : MMRInput) (updates : List MatchUpdate) (now : Int),
      (((map_mmr_to_henrik n t p mmr updates now).seasonal).map (·.seasonId)).Pairwise
        (fun a b => tupLeB (sort_key_season a) (sort_key_season b) = true) := by
    intro n t p mmr updates now
    rw [report_seasonal_sids]
    exact List.Pairwise.sublist (List.filter_sublist _)
      (stableSort_pairwise htot htrans ((seasonalInfoOf mmr).map (·.1)))
  refine ⟨?_, ?_, ?_, by decide⟩
  · intro n t p mmr updates now s hs
    rcases List.mem_filterMap.1 hs with ⟨sid, _, hf⟩
    by_cases hg : pyStartsWith (season_short sid) 'e'
    · have hseq : s.seasonId = sid := by
        simp only [seasonSummaryFor, hg, not_true_eq_false, if_false,
          Option.some.injEq] at hf
        rw [← hf]
      rw [hseq]
      exact hg
    · simp [seasonSummaryFor, hg] at hf
  · intro n t p mmr updates now
    exact List.pairwise_map.1 (hle n t p mmr updates now)
  · intro n t p mmr updates now hnd
    have h1 : (((seasonalInfoOf mmr).map (·.1)).map sort_key_season).Nodup := by
      rw [List.map_map]
      exact hnd
    have h2 : ((stableSort (fun a b => tupLeB (sort_key_season a) (sort_key_season b))
        ((seasonalInfoOf mmr).map (·.1))).map sort_key_season).Nodup :=
      ((stableSort_perm _ _).map sort_key_season).nodup_iff.2 h1
    have h3 : (((stableSort (fun a b => tupLeB (sort_key_season a) (sort_key_season b))
        ((seasonalInfoOf mmr).map (·.1))).filter
          (fun sid => pyStartsWith (season_short sid) 'e')).map sort_key_season).Nodup :=
      List.Nodup.sublist (List.Sublist.map _ (List.filter_sublist _)) h2
    have h4 : (((map_mmr_to_henrik n t p mmr updates now).seasonal).map
        (·.seasonId)).Pairwise
        (fun a b => sort_key_season a ≠ sort_key_season b) := by
      rw [report_seasonal_sids]
      exact List.pairwise_map.1 h3
    have h5 := (hle n t p mmr updates now).and h4
    exact List.pairwise_map.1 h5

/-- Witness for the hypothesis of seasonal_breakdown_order_amended. -/
theorem seasonal_breakdown_order_amended_witness :
    ((map_mmr_to_henrik r"n" r"t" r"p" Cx.mmrC1 [] 0).seasonal).Pairwise
      (fun x y =>
        tupLeB (sort_key_season x.seasonId) (sort_key_season y.seasonId) = true ∧
        sort_key_season x.seasonId ≠ sort_key_season y.seasonId) :=
  seasonal_breakdown_order_amended.2.2.1 r"n" r"t" r"p" Cx.mmrC1 [] 0 (by decide)

end ClaimC4
